import Mathlib

/-!
Shallow embedding of the pickleballtv Streamlink plugin
(src/streamlink/plugins/pickleballtv.py).

The plugin's `_get_streams` performs one linear pipeline: HTTP GET of a fixed
JSON endpoint, JSON parse, schema validation via streamlink's `validate`
library, extraction of `playlist[0]["sources"][0]["file"]`, a falsy check on
the extracted URL, and delegation to the external HLS variant-playlist parser.

The HTTP transport, the JSON parser and the `validate` library are external
collaborators that are not part of this repository; where their behaviour
decides a claim it is modelled from the spec (marked `Modelled from the spec`
in the doc comments below).  The response body after the JSON-parse step is
modelled as `Option Json` (`none` = the body is not valid JSON); the HLS
collaborator is a parameter `hls : String → σ`.
-/

/-- JSON values, modelling the parsed response body of the playlist endpoint. -/
inductive Json where
  | null : Json
  | bool : Bool → Json
  | num : Int → Json
  | str : String → Json
  | arr : List Json → Json
  | obj : List (String × Json) → Json

/-- Lookup of a key in a JSON object, modelling Python dict access
(keys of a parsed JSON object are unique, so the first binding wins). -/
def lookupKey (key : String) : List (String × Json) → Option Json
  | [] => none
  | (k, v) :: rest => if k = key then some v else lookupKey key rest

/-- Splits a character list at the first occurrence of `c`; the second
component is `none` when `c` does not occur. -/
def splitFirst (c : Char) : List Char → List Char × Option (List Char)
  | [] => ([], none)
  | x :: xs =>
    if x = c then ([], some xs)
    else
      let p := splitFirst c xs
      (x :: p.1, p.2)

/-- Components of a URL split as scheme://netloc/path?query#fragment. -/
structure UrlParts where
  scheme : String
  netloc : String
  path : String
  query : String
  fragment : String

/-- Modelled from the spec: characters permitted in a URL scheme
(letters, digits, plus, minus, dot). -/
def isSchemeChar (c : Char) : Bool :=
  c.isAlphanum || c == '+' || c == '-' || c == '.'

/-- Modelled from the spec: splits a leading `scheme:` off a URL when the part
before the first colon is a nonempty run of scheme characters starting with a
letter; the scheme is lowercased.  Otherwise the input is left untouched. -/
def splitScheme (cs : List Char) : List Char × List Char :=
  match splitFirst ':' cs with
  | (p :: ps, some rest) =>
    if p.isAlpha && (p :: ps).all isSchemeChar then
      ((p :: ps).map Char.toLower, rest)
    else ([], cs)
  | _ => ([], cs)

/-- Characters that terminate the netloc of a URL. -/
def isNetlocEnd (c : Char) : Bool :=
  c == '/' || c == '?' || c == '#'

/-- Modelled from the spec: when the remainder starts with a double slash, the
netloc runs up to the next slash, question mark or hash. -/
def splitNetloc (cs : List Char) : List Char × List Char :=
  match cs with
  | '/' :: '/' :: rest =>
    (rest.takeWhile (fun c => !isNetlocEnd c), rest.dropWhile (fun c => !isNetlocEnd c))
  | _ => ([], cs)

/-- Splits path from query at the first question mark. -/
def splitQuery (cs : List Char) : List Char × List Char :=
  match splitFirst '?' cs with
  | (p, some rest) => (p, rest)
  | (p, none) => (p, [])

/-- Modelled from the spec ("parseable as an absolute URL"): URL splitting into
scheme, netloc, path, query and fragment, following the generic URI syntax that
Python's urllib.parse implements (an external collaborator of the plugin):
the fragment is cut at the first hash, then the scheme, then the netloc after
a double slash, then the query after the first question mark. -/
def urlparse (s : String) : UrlParts :=
  let noFrag := splitFirst '#' s.toList
  let sch := splitScheme noFrag.1
  let net := splitNetloc sch.2
  let pq := splitQuery net.2
  { scheme := String.mk sch.1
    netloc := String.mk net.1
    path := String.mk pq.1
    query := String.mk pq.2
    fragment := String.mk (noFrag.2.getD []) }

/-- Whether `suf` occurs as a literal suffix of `s`. -/
def strEndsWith (s suf : String) : Bool :=
  suf.toList.isSuffixOf s.toList

/-- Modelled from the spec together with the plugin's schema (source lines
41-44): the `validate.url` sub-validator.  The validate library is an external
collaborator that is not part of this repository; per the spec the value must
be "parseable as an absolute URL" (nonempty scheme and netloc) and the plugin
constrains the `path` component to end with ".m3u8" via
`validate.url(path=validate.endswith(".m3u8"))`. -/
def validFile (s : String) : Bool :=
  (urlparse s).scheme != "" && (urlparse s).netloc != "" &&
    strEndsWith (urlparse s).path ".m3u8"

/-- The "file" value of a source object, when it is a string. -/
def fileOf : Json → Option String
  | .obj kvs =>
    match lookupKey "file" kvs with
    | some (.str f) => some f
    | _ => none
  | _ => none

/-- The "sources" value of a playlist entry, as a sequence, when present. -/
def sourcesOf : Json → Option (List Json)
  | .obj kvs =>
    match lookupKey "sources" kvs with
    | some (.arr ss) => some ss
    | _ => none
  | _ => none

/-- The "playlist" value of a response, as a sequence, when present. -/
def playlistOf : Json → Option (List Json)
  | .obj kvs =>
    match lookupKey "playlist" kvs with
    | some (.arr pl) => some pl
    | _ => none
  | _ => none

/-- Validation of one element of a "sources" sequence against the plugin's
schema (source lines 40-44): a mapping whose key "file" holds a string passing
`validFile`. -/
def validSource (s : Json) : Bool :=
  match fileOf s with
  | some f => validFile f
  | none => false

/-- Validation of one element of the "playlist" sequence (source lines 38-46):
a mapping whose key "sources" holds a non-empty sequence whose every element
passes `validSource`.  Non-emptiness of the sequence is modelled from the spec
("a non-empty ordered sequence"); the validate library deciding this is
external to the repository. -/
def validEntry (e : Json) : Bool :=
  match sourcesOf e with
  | some ss => !ss.isEmpty && ss.all validSource
  | none => false

/-- Error taxonomy of the spec, section 7: `ParseError` for a body that is not
valid JSON, `SchemaError` for well-formed JSON that does not match the expected
shape. -/
inductive ResolutionError where
  | parseError
  | schemaError
deriving DecidableEq

/-- The schema validation plus the final `validate.get("playlist")` step
(source lines 34-51): the parsed document must be a mapping whose key
"playlist" holds a non-empty sequence whose every element passes `validEntry`;
on success the playlist sequence itself is returned.  Sequence semantics are
modelled from the spec where the external validate library decides them. -/
def schemaValidate (j : Json) : Except ResolutionError (List Json) :=
  match playlistOf j with
  | some entries =>
    if !entries.isEmpty && entries.all validEntry then .ok entries
    else .error .schemaError
  | none => .error .schemaError

/-- The extraction `playlist[0]["sources"][0]["file"]` of source line 55;
`none` models a value of the wrong shape at that line, which Python would
surface as an uncaught IndexError, KeyError or TypeError (at this line or,
for a non-string file value that the schema excludes anyway, downstream). -/
def extractFirstFile : List Json → Option String
  | [] => none
  | entry :: _ =>
    match sourcesOf entry with
    | some (s0 :: _) => fileOf s0
    | _ => none

/-- Possible outcomes of one resolution call: `streams` is the stream set the
HLS collaborator produced, `noStreams` is the bare `return` of the falsy-URL
branch (source lines 57-59), `err` is an exception of the spec's taxonomy
propagated to the caller, `crash` is an uncaught error at the extraction of
source line 55. -/
inductive Outcome (σ : Type) where
  | streams : σ → Outcome σ
  | noStreams : Outcome σ
  | err : ResolutionError → Outcome σ
  | crash : Outcome σ

/-- The resolver pipeline of `_get_streams` (source lines 30-63).  `body` is
the response body after the JSON-parse step, `none` modelling a body that is
not valid JSON (the `validate.parse_json()` step; the parser itself is
external and modelled from the spec); `hls` is the external HLS
variant-playlist collaborator, `HLSStream.parse_variant_playlist`. -/
def resolve {σ : Type} (hls : String → σ) (body : Option Json) : Outcome σ :=
  match body with
  | none => .err .parseError
  | some j =>
    match schemaValidate j with
    | .error e => .err e
    | .ok pl =>
      match extractFirstFile pl with
      | none => .crash
      | some videoUrl =>
        if videoUrl = "" then .noStreams
        else .streams (hls videoUrl)

/-- The value `playlist[0].sources[0].file` of a whole response document. -/
def firstFileOf (j : Json) : Option String :=
  match playlistOf j with
  | some pl => extractFirstFile pl
  | none => none

/-- A conforming manifest URL used by concrete instances below. -/
def goodUrl : String := "https://cdn.jwplayer.com/live/sites/kqrvUq1X.m3u8"

/-- A conforming source object. -/
def srcGood : Json := .obj [("file", .str goodUrl)]

/-- A conforming playlist entry. -/
def entryGood : Json := .obj [("sources", .arr [srcGood])]

/-- A conforming playlist sequence. -/
def plGood : List Json := [entryGood]

/-- A conforming response document. -/
def jGood : Json := .obj [("playlist", .arr plGood)]

/-- A response whose first (and only) file value is the empty string. -/
def jEmptyFile : Json :=
  .obj [("playlist", .arr [.obj [("sources", .arr [.obj [("file", .str "")]])]])]

/-- A response whose "playlist" value is the empty sequence. -/
def jEmptyPl : Json := .obj [("playlist", .arr [])]

/-- A manifest URL whose path component ends in ".m3u8" but whose string does
not, because of a query string. -/
def queryUrl : String := "https://example.com/live.m3u8?token=1"

/-- The playlist sequence carrying `queryUrl`. -/
def plQuery : List Json := [.obj [("sources", .arr [.obj [("file", .str queryUrl)]])]]

/-- A response carrying `queryUrl`. -/
def jQuery : Json := .obj [("playlist", .arr plQuery)]

/-- A second query-string manifest URL, for the suffix claim. -/
def queryUrl2 : String := "https://example.com/stream.m3u8?sig=2"

/-- A response carrying `queryUrl2`. -/
def jQuery2 : Json :=
  .obj [("playlist", .arr [.obj [("sources", .arr [.obj [("file", .str queryUrl2)]])]])]

/-- A manifest URL whose path ends in ".mp4", not ".m3u8". -/
def mp4Url : String := "https://example.com/video.mp4"

/-- A response carrying `mp4Url`. -/
def jMp4 : Json :=
  .obj [("playlist", .arr [.obj [("sources", .arr [.obj [("file", .str mp4Url)]])]])]

/-- A mapping without the "playlist" key. -/
def kvsNoPlaylist : List (String × Json) := [("title", .str "pbtv")]

/-- A playlist entry whose only source is not a conforming URL. -/
def entryBad : Json := .obj [("sources", .arr [.obj [("file", .str mp4Url)]])]

/-- A playlist whose first entry conforms and whose second does not. -/
def plMixed : List Json := [entryGood, entryBad]

/-- A response whose first source is valid but whose second entry is not. -/
def jMixed : Json := .obj [("playlist", .arr plMixed)]

/-! Helper lemmas about the validators and the pipeline. -/

/-- The empty string is not a valid manifest URL. -/
theorem validFile_empty : validFile "" = false := rfl

/-- A string passing the URL validator is nonempty. -/
theorem ne_empty_of_validFile (s : String) (h : validFile s = true) : s ≠ "" := by
  intro hs
  rw [hs, validFile_empty] at h
  cases h

/-- Unfolding of a successful URL validation into its three components. -/
theorem validFile_parts (s : String) (h : validFile s = true) :
    (urlparse s).scheme ≠ "" ∧ (urlparse s).netloc ≠ "" ∧
      strEndsWith (urlparse s).path ".m3u8" = true := by
  unfold validFile at h
  rw [Bool.and_eq_true, Bool.and_eq_true] at h
  exact ⟨bne_iff_ne.mp h.1.1, bne_iff_ne.mp h.1.2, h.2⟩

/-- A URL whose path component does not end in ".m3u8" fails the validator. -/
theorem validFile_eq_false_of_path (s : String)
    (h : strEndsWith (urlparse s).path ".m3u8" = false) : validFile s = false := by
  unfold validFile
  rw [h]
  simp

/-- Inversion of a successful source validation. -/
theorem validSource_eq_true_inv (s : Json) (h : validSource s = true) :
    ∃ f, fileOf s = some f ∧ validFile f = true := by
  cases hf : fileOf s with
  | none => simp [validSource, hf] at h
  | some f =>
    simp only [validSource, hf] at h
    exact ⟨f, rfl, h⟩

/-- Inversion of a successful playlist-entry validation. -/
theorem validEntry_eq_true_inv (e : Json) (h : validEntry e = true) :
    ∃ s0 srest, sourcesOf e = some (s0 :: srest) ∧ validSource s0 = true := by
  cases hs : sourcesOf e with
  | none => simp [validEntry, hs] at h
  | some ss =>
    simp only [validEntry, hs] at h
    rw [Bool.and_eq_true] at h
    obtain ⟨hne, hall⟩ := h
    cases ss with
    | nil => simp at hne
    | cons s0 srest =>
      rw [List.all_cons, Bool.and_eq_true] at hall
      exact ⟨s0, srest, rfl, hall.1⟩

/-- An entry whose sources sequence is empty fails validation. -/
theorem validEntry_eq_false_of_empty (e : Json) (hs : sourcesOf e = some []) :
    validEntry e = false := by
  simp [validEntry, hs]

/-- An entry one of whose sources fails validation fails validation itself. -/
theorem validEntry_eq_false_of_source (e : Json) (ss : List Json) (s : Json)
    (hs : sourcesOf e = some ss) (hmem : s ∈ ss) (hbad : validSource s = false) :
    validEntry e = false := by
  simp only [validEntry, hs]
  cases hall : ss.all validSource with
  | false => simp
  | true =>
    have hmem' := List.all_eq_true.mp hall s hmem
    rw [hbad] at hmem'
    cases hmem'

/-- A sequence containing a failing entry fails the element-wise validation. -/
theorem all_validEntry_eq_false (pl : List Json) (e : Json)
    (hmem : e ∈ pl) (hbad : validEntry e = false) :
    pl.all validEntry = false := by
  cases hall : pl.all validEntry with
  | false => rfl
  | true =>
    have hmem' := List.all_eq_true.mp hall e hmem
    rw [hbad] at hmem'
    cases hmem'

/-- Inversion of a successful schema validation. -/
theorem schemaValidate_ok_inv (j : Json) (pl : List Json)
    (h : schemaValidate j = .ok pl) :
    playlistOf j = some pl ∧ pl ≠ [] ∧ pl.all validEntry = true := by
  cases hp : playlistOf j with
  | none => simp [schemaValidate, hp] at h
  | some entries =>
    simp only [schemaValidate, hp] at h
    split at h
    case isTrue hc =>
      injection h with h'
      subst h'
      rw [Bool.and_eq_true] at hc
      obtain ⟨hne, hall⟩ := hc
      refine ⟨rfl, ?_, hall⟩
      intro hnil
      subst hnil
      simp at hne
    case isFalse hc => exact Except.noConfusion h

/-- Schema validation fails when some playlist element fails validation. -/
theorem schemaValidate_eq_error (j : Json) (pl : List Json)
    (hp : playlistOf j = some pl) (hall : pl.all validEntry = false) :
    schemaValidate j = .error .schemaError := by
  simp [schemaValidate, hp, hall]

/-- Schema validation fails when the playlist sequence is empty. -/
theorem schemaValidate_eq_error_of_empty (j : Json) (hp : playlistOf j = some []) :
    schemaValidate j = .error .schemaError := by
  simp [schemaValidate, hp]

/-- A fully validated playlist yields an extracted first file passing the
URL validator. -/
theorem extract_of_valid (pl : List Json) (hne : pl ≠ [])
    (hall : pl.all validEntry = true) :
    ∃ url, extractFirstFile pl = some url ∧ validFile url = true := by
  cases pl with
  | nil => exact absurd rfl hne
  | cons e rest =>
    rw [List.all_cons, Bool.and_eq_true] at hall
    obtain ⟨s0, srest, hs, hvs⟩ := validEntry_eq_true_inv e hall.1
    obtain ⟨f, hf, hvf⟩ := validSource_eq_true_inv s0 hvs
    exact ⟨f, by simp [extractFirstFile, hs, hf], hvf⟩

/-- Inversion of a successful extraction. -/
theorem extractFirstFile_inv (pl : List Json) (s : String)
    (hx : extractFirstFile pl = some s) :
    ∃ e rest s0 srest, pl = e :: rest ∧ sourcesOf e = some (s0 :: srest) ∧
      fileOf s0 = some s := by
  cases pl with
  | nil => simp [extractFirstFile] at hx
  | cons e rest =>
    cases hs : sourcesOf e with
    | none => simp [extractFirstFile, hs] at hx
    | some ss =>
      cases ss with
      | nil => simp [extractFirstFile, hs] at hx
      | cons s0 srest =>
        simp only [extractFirstFile, hs] at hx
        exact ⟨e, rest, s0, srest, rfl, hs, hx⟩

/-- A playlist whose extracted first file fails the URL validator fails the
element-wise validation. -/
theorem all_eq_false_of_bad_first_file (pl : List Json) (s : String)
    (hx : extractFirstFile pl = some s) (hbad : validFile s = false) :
    pl.all validEntry = false := by
  obtain ⟨e, rest, s0, srest, hpl, hs, hf⟩ := extractFirstFile_inv pl s hx
  subst hpl
  have hvs : validSource s0 = false := by simp [validSource, hf, hbad]
  have hve : validEntry e = false :=
    validEntry_eq_false_of_source e (s0 :: srest) s0 hs (List.mem_cons_self s0 srest) hvs
  exact all_validEntry_eq_false (e :: rest) e (List.mem_cons_self e rest) hve

/-- Inversion of a document-level first-file extraction. -/
theorem firstFileOf_inv (j : Json) (s : String) (h : firstFileOf j = some s) :
    ∃ pl, playlistOf j = some pl ∧ extractFirstFile pl = some s := by
  cases hp : playlistOf j with
  | none => simp [firstFileOf, hp] at h
  | some pl =>
    simp only [firstFileOf, hp] at h
    exact ⟨pl, rfl, h⟩

/-- The resolver propagates a validation error. -/
theorem resolve_eq_err {σ : Type} (hls : String → σ) (j : Json)
    (e : ResolutionError) (h : schemaValidate j = .error e) :
    resolve hls (some j) = .err e := by
  simp [resolve, h]

/-- The resolver's success path. -/
theorem resolve_eq_streams {σ : Type} (hls : String → σ) (j : Json)
    (pl : List Json) (url : String) (hok : schemaValidate j = .ok pl)
    (hx : extractFirstFile pl = some url) (hne : url ≠ "") :
    resolve hls (some j) = .streams (hls url) := by
  simp [resolve, hok, hx, hne]

/-! Claim theorems. -/

/-- C1: for every response accepted by the schema, the resolver selects
playlist[0].sources[0].file as the manifest URL and passes that exact string,
unchanged, to the external HLS variant-playlist parser, returning whatever
stream set the parser produces. -/
theorem c1_resolve_selects_first_file {σ : Type} (hls : String → σ)
    (j : Json) (pl : List Json) (h : schemaValidate j = .ok pl) :
    ∃ url, extractFirstFile pl = some url ∧
      resolve hls (some j) = .streams (hls url) := by
  obtain ⟨-, hne, hall⟩ := schemaValidate_ok_inv j pl h
  obtain ⟨url, hx, hvf⟩ := extract_of_valid pl hne hall
  exact ⟨url, hx, resolve_eq_streams hls j pl url h hx (ne_empty_of_validFile url hvf)⟩

/-- C1 witness: the conforming document jGood. -/
theorem c1_witness :
    schemaValidate jGood = .ok plGood ∧
      ∃ url, extractFirstFile plGood = some url ∧
        resolve (fun s : String => s) (some jGood) = .streams ((fun s : String => s) url) :=
  ⟨rfl, c1_resolve_selects_first_file (fun s : String => s) jGood plGood rfl⟩

/-- C2 counterexample: for the response whose only file value is the empty
string, resolution raises SchemaError; it does not return an empty stream set,
so the claim as stated fails on this input. -/
theorem c2_counterexample :
    resolve (fun s : String => s) (some jEmptyFile) = .err .schemaError ∧
      (Outcome.err ResolutionError.schemaError : Outcome String) ≠ Outcome.noStreams :=
  ⟨rfl, fun hcon => Outcome.noConfusion hcon⟩

/-- C2 (amended): for every response in which playlist[0].sources[0].file is
the empty string, schema validation rejects the document, because the empty
string is not an absolute URL, so resolution fails with SchemaError; the
empty-stream outcome of the falsy-URL branch is not reached. -/
theorem c2_empty_file_schema_error {σ : Type} (hls : String → σ) (j : Json)
    (h : firstFileOf j = some "") :
    resolve hls (some j) = .err .schemaError := by
  obtain ⟨pl, hp, hx⟩ := firstFileOf_inv j "" h
  have hall := all_eq_false_of_bad_first_file pl "" hx validFile_empty
  exact resolve_eq_err hls j .schemaError (schemaValidate_eq_error j pl hp hall)

/-- C2 witness: the amended claim at the empty-file document. -/
theorem c2_witness :
    firstFileOf jEmptyFile = some "" ∧
      resolve (fun s : String => s) (some jEmptyFile) = .err .schemaError :=
  ⟨rfl, c2_empty_file_schema_error (fun s : String => s) jEmptyFile rfl⟩

/-- C3: for every well-formed response whose "playlist" value, or the
"sources" value of some playlist entry, is an empty sequence, resolution fails
with SchemaError, because the schema requires these sequences to be non-empty;
in particular it never crashes with an out-of-range indexing error. -/
theorem c3_empty_sequence_schema_error {σ : Type} (hls : String → σ)
    (j : Json) (pl : List Json) (hp : playlistOf j = some pl)
    (h : pl = [] ∨ ∃ e ∈ pl, sourcesOf e = some []) :
    resolve hls (some j) = .err .schemaError ∧
      resolve hls (some j) ≠ .crash := by
  have herr : schemaValidate j = .error .schemaError := by
    rcases h with hnil | ⟨e, hmem, hsrc⟩
    · subst hnil
      exact schemaValidate_eq_error_of_empty j hp
    · exact schemaValidate_eq_error j pl hp
        (all_validEntry_eq_false pl e hmem (validEntry_eq_false_of_empty e hsrc))
  have hres := resolve_eq_err hls j .schemaError herr
  refine ⟨hres, ?_⟩
  rw [hres]
  intro hcon
  exact Outcome.noConfusion hcon

/-- C3 witness: the response whose playlist is the empty sequence. -/
theorem c3_witness :
    playlistOf jEmptyPl = some [] ∧
      resolve (fun s : String => s) (some jEmptyPl) = .err .schemaError ∧
      resolve (fun s : String => s) (some jEmptyPl) ≠ .crash :=
  ⟨rfl, c3_empty_sequence_schema_error (fun s : String => s) jEmptyPl [] rfl (Or.inl rfl)⟩

/-- C4 counterexample: queryUrl is accepted by the schema and handed to the
HLS parser although its string does not end in ".m3u8"; only its path
component does, the string continuing with a query. -/
theorem c4_counterexample :
    resolve (fun s : String => s) (some jQuery) = .streams queryUrl ∧
      strEndsWith queryUrl ".m3u8" = false :=
  ⟨rfl, rfl⟩

/-- C4 (amended): every manifest URL accepted by schema validation (and thus
every URL handed to the HLS parser) is a syntactically valid absolute URL
(nonempty scheme and netloc) whose path component ends in the literal suffix
".m3u8"; the full string may continue with a query or fragment. -/
theorem c4_accepted_url_shape (j : Json) (pl : List Json) (url : String)
    (hok : schemaValidate j = .ok pl) (hx : extractFirstFile pl = some url) :
    (urlparse url).scheme ≠ "" ∧ (urlparse url).netloc ≠ "" ∧
      strEndsWith (urlparse url).path ".m3u8" = true := by
  obtain ⟨-, hne, hall⟩ := schemaValidate_ok_inv j pl hok
  obtain ⟨url', hx', hvf⟩ := extract_of_valid pl hne hall
  rw [hx] at hx'
  injection hx' with he
  subst he
  exact validFile_parts url hvf

/-- C4 witness: the amended claim at the query-string document. -/
theorem c4_witness :
    schemaValidate jQuery = .ok plQuery ∧
      extractFirstFile plQuery = some queryUrl ∧
      ((urlparse queryUrl).scheme ≠ "" ∧ (urlparse queryUrl).netloc ≠ "" ∧
        strEndsWith (urlparse queryUrl).path ".m3u8" = true) :=
  ⟨rfl, rfl, c4_accepted_url_shape jQuery plQuery queryUrl rfl rfl⟩

/-- C5 counterexample: queryUrl2 is a URL not ending in ".m3u8", yet schema
validation accepts it and resolution succeeds, so the claim as stated fails
on this input. -/
theorem c5_counterexample :
    strEndsWith queryUrl2 ".m3u8" = false ∧
      resolve (fun s : String => s) (some jQuery2) = .streams queryUrl2 :=
  ⟨rfl, rfl⟩

/-- C5 (amended): for every response whose first file value is a URL whose
path component does not end in ".m3u8" (for example mp4Url), schema validation
fails and resolution fails with SchemaError. -/
theorem c5_bad_suffix_schema_error {σ : Type} (hls : String → σ)
    (j : Json) (s : String) (hf : firstFileOf j = some s)
    (hbad : strEndsWith (urlparse s).path ".m3u8" = false) :
    resolve hls (some j) = .err .schemaError := by
  obtain ⟨pl, hp, hx⟩ := firstFileOf_inv j s hf
  have hall := all_eq_false_of_bad_first_file pl s hx (validFile_eq_false_of_path s hbad)
  exact resolve_eq_err hls j .schemaError (schemaValidate_eq_error j pl hp hall)

/-- C5 witness: the amended claim at the mp4 document. -/
theorem c5_witness :
    firstFileOf jMp4 = some mp4Url ∧
      strEndsWith (urlparse mp4Url).path ".m3u8" = false ∧
      resolve (fun s : String => s) (some jMp4) = .err .schemaError :=
  ⟨rfl, rfl, c5_bad_suffix_schema_error (fun s : String => s) jMp4 mp4Url rfl rfl⟩

/-- C6: for every well-formed JSON response that is a mapping missing the
"playlist" key, resolution fails with SchemaError. -/
theorem c6_missing_playlist_schema_error {σ : Type} (hls : String → σ)
    (kvs : List (String × Json)) (h : lookupKey "playlist" kvs = none) :
    resolve hls (some (.obj kvs)) = .err .schemaError := by
  have hp : playlistOf (.obj kvs) = none := by simp [playlistOf, h]
  have herr : schemaValidate (.obj kvs) = .error .schemaError := by
    simp [schemaValidate, hp]
  exact resolve_eq_err hls (.obj kvs) .schemaError herr

/-- C6 witness: a mapping carrying only a "title" key. -/
theorem c6_witness :
    lookupKey "playlist" kvsNoPlaylist = none ∧
      resolve (fun s : String => s) (some (.obj kvsNoPlaylist)) = .err .schemaError :=
  ⟨rfl, c6_missing_playlist_schema_error (fun s : String => s) kvsNoPlaylist rfl⟩

/-- C7: for every response body that is not valid JSON (modelled by the
JSON-parse step yielding none), resolution fails with ParseError. -/
theorem c7_non_json_parse_error {σ : Type} (hls : String → σ) :
    resolve hls none = .err .parseError := rfl

/-- C8: resolution is deterministic and idempotent: it is a pure function of
the server response with no component-owned state, so two invocations with
identical responses yield identical outcomes. -/
theorem c8_resolve_deterministic {σ : Type} (hls : String → σ)
    (b1 b2 : Option Json) (h : b1 = b2) :
    resolve hls b1 = resolve hls b2 := by rw [h]

/-- C8 witness: two invocations at the conforming document. -/
theorem c8_witness :
    (some jGood : Option Json) = some jGood ∧
      resolve (fun s : String => s) (some jGood) =
        resolve (fun s : String => s) (some jGood) :=
  ⟨rfl, c8_resolve_deterministic (fun s : String => s) (some jGood) (some jGood) rfl⟩

/-- C9: under the precondition that schema validation succeeded, the extracted
video url is a nonempty string (the URL validator rejects empty and non-URL
strings), so the falsy-URL branch that logs a warning and returns no streams
is unreachable for any schema-accepted response. -/
theorem c9_falsy_branch_unreachable {σ : Type} (hls : String → σ)
    (j : Json) (pl : List Json) (h : schemaValidate j = .ok pl) :
    (∃ url, extractFirstFile pl = some url ∧ url ≠ "") ∧
      resolve hls (some j) ≠ .noStreams := by
  obtain ⟨-, hne, hall⟩ := schemaValidate_ok_inv j pl h
  obtain ⟨url, hx, hvf⟩ := extract_of_valid pl hne hall
  have hnu := ne_empty_of_validFile url hvf
  refine ⟨⟨url, hx, hnu⟩, ?_⟩
  rw [resolve_eq_streams hls j pl url h hx hnu]
  intro hcon
  exact Outcome.noConfusion hcon

/-- C9 witness: the conforming document jGood. -/
theorem c9_witness :
    schemaValidate jGood = .ok plGood ∧
      ((∃ url, extractFirstFile plGood = some url ∧ url ≠ "") ∧
        resolve (fun s : String => s) (some jGood) ≠ .noStreams) :=
  ⟨rfl, c9_falsy_branch_unreachable (fun s : String => s) jGood plGood rfl⟩

/-- C10: schema validation applies to every element of the "playlist" sequence
and of each entry's "sources" sequence, not only to the first elements that
are extracted: a response whose first source is a valid .m3u8 URL still fails
resolution entirely when any playlist entry, or any source inside an entry,
does not conform. -/
theorem c10_all_elements_validated {σ : Type} (hls : String → σ)
    (j : Json) (pl : List Json) (e : Json)
    (hp : playlistOf j = some pl) (hmem : e ∈ pl)
    (hbad : validEntry e = false ∨
      ∃ ss s, sourcesOf e = some ss ∧ s ∈ ss ∧ validSource s = false) :
    resolve hls (some j) = .err .schemaError := by
  have hve : validEntry e = false := by
    rcases hbad with hbad | ⟨ss, s, hs, hmem2, hvs⟩
    · exact hbad
    · exact validEntry_eq_false_of_source e ss s hs hmem2 hvs
  exact resolve_eq_err hls j .schemaError
    (schemaValidate_eq_error j pl hp (all_validEntry_eq_false pl e hmem hve))

/-- C10 witness: a playlist whose first entry conforms and whose second does
not; the whole resolution fails. -/
theorem c10_witness :
    playlistOf jMixed = some plMixed ∧ entryBad ∈ plMixed ∧
      validEntry entryGood = true ∧ validEntry entryBad = false ∧
      resolve (fun s : String => s) (some jMixed) = .err .schemaError :=
  ⟨rfl, List.mem_cons_of_mem entryGood (List.mem_cons_self entryBad []),
    rfl, rfl,
    c10_all_elements_validated (fun s : String => s) jMixed plMixed entryBad rfl
      (List.mem_cons_of_mem entryGood (List.mem_cons_self entryBad [])) (Or.inl rfl)⟩
